import Mathlib

/-!
Verification of the `neli-wifi` attribute decoder and netlink query driver.

The development shallowly embeds `src/interface.rs` (the `Interface` record
and its `TryFrom<Attrs<Nl80211Attr>>` decoder) and the receive loops of
`src/socket.rs` (`Socket::get_info` and `Socket::get_info_vec`).

Machine bytes are `Nat` values below 256; fixed-width wire integers are
decoded little-endian with an exact length check, mirroring the behaviour of
the transport library helpers `get_payload_as` (fixed width, length strict)
and `get_payload_as_with_len` (verbatim byte copy) that the source calls.
-/

set_option autoImplicit false

namespace NeliWifi

/-- Little-endian value of a byte list; each entry is reduced mod 256,
matching the `u8` wire representation. -/
def leValue : List Nat → Nat
  | [] => 0
  | b :: bs => b % 256 + 256 * leValue bs

/-- The four little-endian bytes of a 32-bit value. -/
def le4 (n : Nat) : List Nat :=
  [n % 256, n / 256 % 256, n / 256 ^ 2 % 256, n / 256 ^ 3 % 256]

/-- Decode failure of a fixed-width attribute: the payload length did not
match the declared width (the spec calls this `MalformedAttribute`; it is
the only decode error the embedded decoders produce). -/
inductive DeErr : Type where
  | malformedAttribute
deriving DecidableEq, Repr

/-- Modelled from the spec: the attribute-tag catalog `crate::attr::Nl80211Attr`
is not under `src/`; the constructors below are exactly the tags matched by
name in `Interface::try_from` (src/interface.rs), and `other n` stands for
every remaining catalog tag, all of which fall into the decoder wildcard arm. -/
inductive Nl80211Attr : Type where
  | AttrIfindex
  | AttrSsid
  | AttrMac
  | AttrIfname
  | AttrIftype
  | AttrWiphyFreq
  | AttrWiphyChannelType
  | AttrChannelWidth
  | AttrCenterFreq1
  | AttrCenterFreq2
  | AttrWiphyTxPowerLevel
  | AttrWiphy
  | AttrWdev
  | other (code : Nat)
deriving DecidableEq, Repr

/-- One wire attribute: a tag plus its raw byte payload, as exposed by
`attr.nla_type.nla_type` and `attr.nla_payload` in the source. -/
structure NlAttr : Type where
  nla_type : Nl80211Attr
  nla_payload : List Nat
deriving DecidableEq, Repr

/-- Whether a tag is in the recognized catalog of the `Interface` decoder
(i.e. matched by a named arm rather than the wildcard arm). -/
def Nl80211Attr.recognized : Nl80211Attr → Bool
  | .other _ => false
  | _ => true

/-- Declared payload width of the fixed-width integer tags; `none` for the
variable-length byte tags and unrecognized tags. -/
def Nl80211Attr.fixedWidth : Nl80211Attr → Option Nat
  | .AttrIfindex => some 4
  | .AttrIftype => some 4
  | .AttrWiphyFreq => some 4
  | .AttrWiphyChannelType => some 4
  | .AttrChannelWidth => some 4
  | .AttrCenterFreq1 => some 4
  | .AttrCenterFreq2 => some 4
  | .AttrWiphyTxPowerLevel => some 4
  | .AttrWiphy => some 4
  | .AttrWdev => some 8
  | _ => none

/-- Modelled from the spec: the transport library helper `get_payload_as::<u32>`
(external dependency, out of scope per §1) — exact 4-byte length, little-endian. -/
def getPayloadAsU32 (p : List Nat) : Except DeErr Nat :=
  if p.length = 4 then .ok (leValue p) else .error .malformedAttribute

/-- Modelled from the spec: `get_payload_as::<i32>` — exact 4-byte length,
little-endian, two-complement sign. -/
def getPayloadAsI32 (p : List Nat) : Except DeErr Int :=
  if p.length = 4 then
    .ok (if leValue p < 2 ^ 31 then (leValue p : Int) else (leValue p : Int) - 2 ^ 32)
  else .error .malformedAttribute

/-- Modelled from the spec: `get_payload_as::<u64>` — exact 8-byte length,
little-endian. -/
def getPayloadAsU64 (p : List Nat) : Except DeErr Nat :=
  if p.length = 8 then .ok (leValue p) else .error .malformedAttribute

/-- The wifi interface record of src/interface.rs: a flat set of optional
fields, all absent by default. -/
structure Interface : Type where
  iftype : Option Nat := none
  index : Option Int := none
  ssid : Option (List Nat) := none
  mac : Option (List Nat) := none
  name : Option (List Nat) := none
  frequency : Option Nat := none
  channel_type : Option Nat := none
  channel : Option Nat := none
  center_freq1 : Option Nat := none
  center_freq2 : Option Nat := none
  power : Option Nat := none
  phy : Option Nat := none
  device : Option Nat := none
deriving DecidableEq, Repr

/-- `Interface::default()`: every field absent. -/
def Interface.empty : Interface := {}

/-- One iteration of the `for attr in attrs.iter()` loop of
`Interface::try_from`: dispatch on the tag, decode the payload, overwrite the
corresponding field; unrecognized tags leave the record unchanged. A decode
failure is returned (the `?` operator in the source). -/
def Interface.step (res : Interface) (a : NlAttr) : Except DeErr Interface :=
  match a.nla_type with
  | .AttrIfindex =>
    match getPayloadAsI32 a.nla_payload with
    | .ok v => .ok { res with index := some v }
    | .error e => .error e
  | .AttrSsid => .ok { res with ssid := some a.nla_payload }
  | .AttrMac => .ok { res with mac := some a.nla_payload }
  | .AttrIfname => .ok { res with name := some a.nla_payload }
  | .AttrIftype =>
    match getPayloadAsU32 a.nla_payload with
    | .ok v => .ok { res with iftype := some v }
    | .error e => .error e
  | .AttrWiphyFreq =>
    match getPayloadAsU32 a.nla_payload with
    | .ok v => .ok { res with frequency := some v }
    | .error e => .error e
  | .AttrWiphyChannelType =>
    match getPayloadAsU32 a.nla_payload with
    | .ok v => .ok { res with channel_type := some v }
    | .error e => .error e
  | .AttrChannelWidth =>
    match getPayloadAsU32 a.nla_payload with
    | .ok v => .ok { res with channel := some v }
    | .error e => .error e
  | .AttrCenterFreq1 =>
    match getPayloadAsU32 a.nla_payload with
    | .ok v => .ok { res with center_freq1 := some v }
    | .error e => .error e
  | .AttrCenterFreq2 =>
    match getPayloadAsU32 a.nla_payload with
    | .ok v => .ok { res with center_freq2 := some v }
    | .error e => .error e
  | .AttrWiphyTxPowerLevel =>
    match getPayloadAsU32 a.nla_payload with
    | .ok v => .ok { res with power := some v }
    | .error e => .error e
  | .AttrWiphy =>
    match getPayloadAsU32 a.nla_payload with
    | .ok v => .ok { res with phy := some v }
    | .error e => .error e
  | .AttrWdev =>
    match getPayloadAsU64 a.nla_payload with
    | .ok v => .ok { res with device := some v }
    | .error e => .error e
  | .other _ => .ok res

/-- The fold of `Interface::try_from` over the attribute sequence, starting
from an arbitrary accumulator. -/
def Interface.tryFromGo (res : Interface) : List NlAttr → Except DeErr Interface
  | [] => .ok res
  | a :: rest =>
    match Interface.step res a with
    | .ok r => Interface.tryFromGo r rest
    | .error e => .error e

/-- `impl TryFrom<Attrs<Nl80211Attr>> for Interface` (src/interface.rs):
start from the all-absent default and fold `step` over the attributes. -/
def Interface.tryFrom (attrs : List NlAttr) : Except DeErr Interface :=
  Interface.tryFromGo Interface.empty attrs

/-- A decoded field value, uniform over the three field shapes. -/
inductive FieldVal : Type where
  | i (v : Int)
  | n (v : Nat)
  | bs (v : List Nat)
deriving DecidableEq, Repr

/-- The record field that a recognized tag populates, viewed uniformly. -/
def Interface.fieldOf (t : Nl80211Attr) (r : Interface) : Option FieldVal :=
  match t with
  | .AttrIfindex => r.index.map .i
  | .AttrSsid => r.ssid.map .bs
  | .AttrMac => r.mac.map .bs
  | .AttrIfname => r.name.map .bs
  | .AttrIftype => r.iftype.map .n
  | .AttrWiphyFreq => r.frequency.map .n
  | .AttrWiphyChannelType => r.channel_type.map .n
  | .AttrChannelWidth => r.channel.map .n
  | .AttrCenterFreq1 => r.center_freq1.map .n
  | .AttrCenterFreq2 => r.center_freq2.map .n
  | .AttrWiphyTxPowerLevel => r.power.map .n
  | .AttrWiphy => r.phy.map .n
  | .AttrWdev => r.device.map .n
  | .other _ => none

/-- The per-tag decode rule applied by `step` to a recognized tag, or `none`
for an unrecognized one. -/
def decodeField : Nl80211Attr → List Nat → Option (Except DeErr FieldVal)
  | .AttrIfindex, p =>
    some (match getPayloadAsI32 p with | .ok v => .ok (.i v) | .error e => .error e)
  | .AttrSsid, p => some (.ok (.bs p))
  | .AttrMac, p => some (.ok (.bs p))
  | .AttrIfname, p => some (.ok (.bs p))
  | .AttrIftype, p =>
    some (match getPayloadAsU32 p with | .ok v => .ok (.n v) | .error e => .error e)
  | .AttrWiphyFreq, p =>
    some (match getPayloadAsU32 p with | .ok v => .ok (.n v) | .error e => .error e)
  | .AttrWiphyChannelType, p =>
    some (match getPayloadAsU32 p with | .ok v => .ok (.n v) | .error e => .error e)
  | .AttrChannelWidth, p =>
    some (match getPayloadAsU32 p with | .ok v => .ok (.n v) | .error e => .error e)
  | .AttrCenterFreq1, p =>
    some (match getPayloadAsU32 p with | .ok v => .ok (.n v) | .error e => .error e)
  | .AttrCenterFreq2, p =>
    some (match getPayloadAsU32 p with | .ok v => .ok (.n v) | .error e => .error e)
  | .AttrWiphyTxPowerLevel, p =>
    some (match getPayloadAsU32 p with | .ok v => .ok (.n v) | .error e => .error e)
  | .AttrWiphy, p =>
    some (match getPayloadAsU32 p with | .ok v => .ok (.n v) | .error e => .error e)
  | .AttrWdev, p =>
    some (match getPayloadAsU64 p with | .ok v => .ok (.n v) | .error e => .error e)
  | .other _, _ => none

/-- Modelled from the spec: the command codes of `crate::cmd::Nl80211Cmd`
(not under `src/`) that src/socket.rs issues. -/
inductive Nl80211Cmd : Type where
  | CmdGetInterface
  | CmdGetStation
  | CmdGetScan
deriving DecidableEq, Repr

/-- Modelled from the spec: the fixed protocol version constant
`NL_80211_GENL_VERSION` (declared in the crate root, not under `src/`). -/
def NL_80211_GENL_VERSION : Nat := 1

/-- Serialized payload of the scoping attribute `Nlattr::new(false, false,
AttrIfindex, interface_index)`: the interface index as four little-endian
bytes of its 32-bit two-complement pattern. -/
def i32LeBytes (i : Int) : List Nat := le4 (i % (2 ^ 32 : Int)).toNat

/-- The generic-netlink request envelope `Genlmsghdr` built by the query
methods: command, version and the scoping attribute buffer. -/
structure Genlmsghdr : Type where
  cmd : Nl80211Cmd
  version : Nat
  attrs : List NlAttr
deriving DecidableEq, Repr

/-- Envelope construction in `Socket::get_info` (src/socket.rs): the scope is
mandatory and pushed as the single `AttrIfindex` attribute. -/
def getInfoMsghdr (interface_index : Int) (cmd : Nl80211Cmd) : Genlmsghdr :=
  { cmd := cmd
    version := NL_80211_GENL_VERSION
    attrs := [⟨.AttrIfindex, i32LeBytes interface_index⟩] }

/-- Envelope construction in `Socket::get_info_vec` (src/socket.rs): the
scoping attribute is pushed only when an interface index is provided. -/
def getInfoVecMsghdr (interface_index : Option Int) (cmd : Nl80211Cmd) : Genlmsghdr :=
  { cmd := cmd
    version := NL_80211_GENL_VERSION
    attrs :=
      match interface_index with
      | some i => [⟨.AttrIfindex, i32LeBytes i⟩]
      | none => [] }

/-- One item pulled from the response iterator
`sock.iter::<Nlmsg, Genlmsghdr<Nl80211Cmd, Nl80211Attr>>(false)`:
either a transport-level failure (the iterator yielded `Err`), or a message
classified by its `nl_type` discriminant; a data message carries an optional
payload (`get_payload()` can fail on an empty payload). -/
inductive RecvItem (P : Type) : Type where
  | streamErr
  | noop
  | error
  | done
  | data (payload : Option P)
deriving DecidableEq, Repr

/-- Which `panic!` / `unwrap` site aborted the receive loop. -/
inductive PanicKind : Type where
  | iterUnwrap
  | errMsg
  | payloadUnwrap
deriving DecidableEq, Repr

/-- Outcome of a receive loop: a returned value, a returned error (the `?`
operator), or a process abort at one of the panic sites. -/
inductive RunResult (E T : Type) : Type where
  | ok (val : T)
  | err (e : E)
  | panicked (k : PanicKind)
deriving DecidableEq, Repr

/-- The receive loop of `Socket::get_info` (src/socket.rs, single-record
shape): `retval` holds the last successfully decoded record; `Noop` is
skipped, `Error` hits `panic!("Error")`, `Done` (or iterator exhaustion)
returns `retval.unwrap_or_default()`; any other message is decoded, a decode
failure returning from the method. -/
def getInfoGo {P T : Type} (decode : P → Except DeErr T) (dflt : T) :
    List (RecvItem P) → Option T → RunResult DeErr T
  | [], retval => .ok (retval.getD dflt)
  | .streamErr :: _, _ => .panicked .iterUnwrap
  | .noop :: rest, retval => getInfoGo decode dflt rest retval
  | .error :: _, _ => .panicked .errMsg
  | .done :: _, retval => .ok (retval.getD dflt)
  | .data none :: _, _ => .panicked .payloadUnwrap
  | .data (some p) :: rest, _ =>
    match decode p with
    | .ok t => getInfoGo decode dflt rest (some t)
    | .error e => .err e

/-- `Socket::get_info` receive loop run from its initial state
(`retval = None`). -/
def getInfoRun {P T : Type} (decode : P → Except DeErr T) (dflt : T)
    (items : List (RecvItem P)) : RunResult DeErr T :=
  getInfoGo decode dflt items none

/-- The receive loop of `Socket::get_info_vec` (src/socket.rs, multi-record
shape): decoded records are pushed onto `retval` in arrival order; `Noop` is
skipped, `Error` hits `panic!("Error")`, `Done` (or iterator exhaustion)
returns the accumulated list; a decode failure returns from the method. -/
def getInfoVecGo {P T : Type} (decode : P → Except DeErr T) :
    List (RecvItem P) → List T → RunResult DeErr (List T)
  | [], retval => .ok retval
  | .streamErr :: _, _ => .panicked .iterUnwrap
  | .noop :: rest, retval => getInfoVecGo decode rest retval
  | .error :: _, _ => .panicked .errMsg
  | .done :: _, retval => .ok retval
  | .data none :: _, _ => .panicked .payloadUnwrap
  | .data (some p) :: rest, retval =>
    match decode p with
    | .ok t => getInfoVecGo decode rest (retval ++ [t])
    | .error e => .err e

/-- `Socket::get_info_vec` receive loop run from its initial state
(`retval = Vec::new()`). -/
def getInfoVecRun {P T : Type} (decode : P → Except DeErr T)
    (items : List (RecvItem P)) : RunResult DeErr (List T) :=
  getInfoVecGo decode items []

/-- A clean stream prefix: data messages (all of whose payloads decode
successfully, yielding the record list in arrival order) interleaved with
no-op markers. -/
inductive CleanStream {P T : Type} (decode : P → Except DeErr T) :
    List (RecvItem P) → List T → Prop where
  | nil : CleanStream decode [] []
  | noop {s : List (RecvItem P)} {rs : List T} (h : CleanStream decode s rs) :
      CleanStream decode (.noop :: s) rs
  | data {p : P} {r : T} {s : List (RecvItem P)} {rs : List T}
      (hd : decode p = .ok r) (h : CleanStream decode s rs) :
      CleanStream decode (.data (some p) :: s) (r :: rs)

/-- Number of data messages in a stream prefix. -/
def countData {P : Type} (s : List (RecvItem P)) : Nat :=
  (s.filter fun i => match i with | .data _ => true | _ => false).length

theorem DeErr_eq_malformed (e : DeErr) : e = .malformedAttribute := by
  cases e
  rfl

theorem step_unrecognized (res : Interface) (tg : Nl80211Attr) (p : List Nat)
    (h : tg.recognized = false) : Interface.step res ⟨tg, p⟩ = .ok res := by
  cases tg <;> simp_all [Nl80211Attr.recognized, Interface.step]

theorem fieldOf_empty (t : Nl80211Attr) : Interface.fieldOf t Interface.empty = none := by
  cases t <;> rfl

theorem step_malformed (res : Interface) (tg : Nl80211Attr) (p : List Nat) (w : Nat)
    (hw : tg.fixedWidth = some w) (hl : p.length ≠ w) :
    Interface.step res ⟨tg, p⟩ = .error .malformedAttribute := by
  cases tg <;>
    simp_all [Nl80211Attr.fixedWidth, Interface.step, getPayloadAsI32, getPayloadAsU32,
      getPayloadAsU64]

theorem tryFromGo_cons_ok (res r1 : Interface) (a : NlAttr) (l : List NlAttr)
    (h : Interface.step res a = .ok r1) :
    Interface.tryFromGo res (a :: l) = Interface.tryFromGo r1 l := by
  simp [Interface.tryFromGo, h]

theorem tryFromGo_cons_err (res : Interface) (a : NlAttr) (l : List NlAttr) (e : DeErr)
    (h : Interface.step res a = .error e) :
    Interface.tryFromGo res (a :: l) = .error e := by
  simp [Interface.tryFromGo, h]

theorem tryFromGo_append_ok (l1 : List NlAttr) : ∀ (res r : Interface) (l2 : List NlAttr),
    Interface.tryFromGo res (l1 ++ l2) = .ok r →
    ∃ r1, Interface.tryFromGo res l1 = .ok r1 ∧ Interface.tryFromGo r1 l2 = .ok r := by
  induction l1 with
  | nil => exact fun res r l2 h => ⟨res, rfl, h⟩
  | cons b rest ih =>
    intro res r l2 h
    cases heq : Interface.step res b with
    | ok r1 =>
      rw [List.cons_append, tryFromGo_cons_ok _ _ _ _ heq] at h
      obtain ⟨r2, h2, h3⟩ := ih r1 r l2 h
      exact ⟨r2, by rw [tryFromGo_cons_ok _ _ _ _ heq]; exact h2, h3⟩
    | error e =>
      rw [List.cons_append, tryFromGo_cons_err _ _ _ _ heq] at h
      exact Except.noConfusion h

theorem tryFromGo_cons_ok_inv (res r : Interface) (a : NlAttr) (l : List NlAttr)
    (h : Interface.tryFromGo res (a :: l) = .ok r) :
    ∃ r1, Interface.step res a = .ok r1 ∧ Interface.tryFromGo r1 l = .ok r := by
  cases heq : Interface.step res a with
  | ok r1 => exact ⟨r1, rfl, by rw [tryFromGo_cons_ok _ _ _ _ heq] at h; exact h⟩
  | error e =>
    rw [tryFromGo_cons_err _ _ _ _ heq] at h
    exact Except.noConfusion h

theorem step_ok_fieldOf (res r : Interface) (tg : Nl80211Attr) (p : List Nat)
    (hrec : tg.recognized = true) (h : Interface.step res ⟨tg, p⟩ = .ok r) :
    ∃ v, decodeField tg p = some (.ok v) ∧ Interface.fieldOf tg r = some v := by
  cases tg with
  | other code => simp [Nl80211Attr.recognized] at hrec
  | AttrSsid =>
    simp only [Interface.step] at h
    injection h with h2
    subst h2
    exact ⟨.bs p, by simp [decodeField], by simp [Interface.fieldOf]⟩
  | AttrMac =>
    simp only [Interface.step] at h
    injection h with h2
    subst h2
    exact ⟨.bs p, by simp [decodeField], by simp [Interface.fieldOf]⟩
  | AttrIfname =>
    simp only [Interface.step] at h
    injection h with h2
    subst h2
    exact ⟨.bs p, by simp [decodeField], by simp [Interface.fieldOf]⟩
  | AttrIfindex =>
    simp only [Interface.step] at h
    split at h
    · rename_i x v heq
      injection h with h2
      subst h2
      exact ⟨.i v, by simp [decodeField, heq], by simp [Interface.fieldOf]⟩
    · exact Except.noConfusion h
  | AttrIftype =>
    simp only [Interface.step] at h
    split at h
    · rename_i x v heq
      injection h with h2
      subst h2
      exact ⟨.n v, by simp [decodeField, heq], by simp [Interface.fieldOf]⟩
    · exact Except.noConfusion h
  | AttrWiphyFreq =>
    simp only [Interface.step] at h
    split at h
    · rename_i x v heq
      injection h with h2
      subst h2
      exact ⟨.n v, by simp [decodeField, heq], by simp [Interface.fieldOf]⟩
    · exact Except.noConfusion h
  | AttrWiphyChannelType =>
    simp only [Interface.step] at h
    split at h
    · rename_i x v heq
      injection h with h2
      subst h2
      exact ⟨.n v, by simp [decodeField, heq], by simp [Interface.fieldOf]⟩
    · exact Except.noConfusion h
  | AttrChannelWidth =>
    simp only [Interface.step] at h
    split at h
    · rename_i x v heq
      injection h with h2
      subst h2
      exact ⟨.n v, by simp [decodeField, heq], by simp [Interface.fieldOf]⟩
    · exact Except.noConfusion h
  | AttrCenterFreq1 =>
    simp only [Interface.step] at h
    split at h
    · rename_i x v heq
      injection h with h2
      subst h2
      exact ⟨.n v, by simp [decodeField, heq], by simp [Interface.fieldOf]⟩
    · exact Except.noConfusion h
  | AttrCenterFreq2 =>
    simp only [Interface.step] at h
    split at h
    · rename_i x v heq
      injection h with h2
      subst h2
      exact ⟨.n v, by simp [decodeField, heq], by simp [Interface.fieldOf]⟩
    · exact Except.noConfusion h
  | AttrWiphyTxPowerLevel =>
    simp only [Interface.step] at h
    split at h
    · rename_i x v heq
      injection h with h2
      subst h2
      exact ⟨.n v, by simp [decodeField, heq], by simp [Interface.fieldOf]⟩
    · exact Except.noConfusion h
  | AttrWiphy =>
    simp only [Interface.step] at h
    split at h
    · rename_i x v heq
      injection h with h2
      subst h2
      exact ⟨.n v, by simp [decodeField, heq], by simp [Interface.fieldOf]⟩
    · exact Except.noConfusion h
  | AttrWdev =>
    simp only [Interface.step] at h
    split at h
    · rename_i x v heq
      injection h with h2
      subst h2
      exact ⟨.n v, by simp [decodeField, heq], by simp [Interface.fieldOf]⟩
    · exact Except.noConfusion h

theorem fieldOf_step_ne (res r : Interface) (tg t : Nl80211Attr) (p : List Nat)
    (hne : tg ≠ t) (h : Interface.step res ⟨tg, p⟩ = .ok r) :
    Interface.fieldOf t r = Interface.fieldOf t res := by
  cases tg <;> simp only [Interface.step] at h <;> (try split at h) <;>
    first
      | exact Except.noConfusion h
      | (injection h with h2
         subst h2
         cases t <;> simp_all [Interface.fieldOf])

theorem fieldOf_tryFromGo_ne (t : Nl80211Attr) (l : List NlAttr) :
    ∀ (res r : Interface), (∀ a ∈ l, a.nla_type ≠ t) →
      Interface.tryFromGo res l = .ok r →
      Interface.fieldOf t r = Interface.fieldOf t res := by
  induction l with
  | nil =>
    intro res r _ h
    injection h with h2
    rw [h2]
  | cons a rest ih =>
    intro res r hall h
    obtain ⟨r1, hstep, hrest⟩ := tryFromGo_cons_ok_inv res r a rest h
    have h1 := ih r1 r (fun b hb => hall b (List.mem_cons_of_mem a hb)) hrest
    have h2 := fieldOf_step_ne res r1 a.nla_type t a.nla_payload
      (hall a (List.mem_cons_self a rest)) hstep
    rw [h1, h2]

/-- C4: inside one attribute sequence, a later entry with the same recognized
tag overwrites an earlier one: when decoding succeeds, the field of the tag
equals the value decoded from the last entry carrying that tag. -/
theorem c4_last_write_wins (l1 l2 : List NlAttr) (b a : NlAttr) (r : Interface)
    (hb : b ∈ l1) (hbt : b.nla_type = a.nla_type) (hbp : b.nla_payload ≠ a.nla_payload)
    (hrec : a.nla_type.recognized = true)
    (hl2 : ∀ c ∈ l2, c.nla_type ≠ a.nla_type)
    (hok : Interface.tryFrom (l1 ++ a :: l2) = .ok r) :
    ∃ v, decodeField a.nla_type a.nla_payload = some (.ok v) ∧
      Interface.fieldOf a.nla_type r = some v := by
  obtain ⟨r1, _, hrest⟩ := tryFromGo_append_ok l1 Interface.empty r (a :: l2) hok
  obtain ⟨r2, hstep, htail⟩ := tryFromGo_cons_ok_inv r1 r a l2 hrest
  obtain ⟨v, hdec, hfield⟩ := step_ok_fieldOf r1 r2 a.nla_type a.nla_payload hrec hstep
  have hpres := fieldOf_tryFromGo_ne a.nla_type l2 r2 r hl2 htail
  exact ⟨v, hdec, by rw [hpres, hfield]⟩

/-- C4 witness: in [ifindex ← 1, ifindex ← 2] the later entry wins and the
decoded index field is 2. -/
theorem c4_witness :
    ∃ v, decodeField Nl80211Attr.AttrIfindex [2, 0, 0, 0] = some (.ok v) ∧
      Interface.fieldOf Nl80211Attr.AttrIfindex { index := some 2 } = some v :=
  c4_last_write_wins [⟨.AttrIfindex, [1, 0, 0, 0]⟩] [] ⟨.AttrIfindex, [1, 0, 0, 0]⟩
    ⟨.AttrIfindex, [2, 0, 0, 0]⟩ { index := some 2 } (by decide) rfl (by decide) rfl
    (by decide) rfl

/-- C5: tags outside the recognized catalog are ignored: decoding any
attribute sequence gives the same result as decoding the sequence with the
unrecognized attributes filtered out, and an unrecognized tag on its own
never produces a decode error. -/
theorem c5_unknown_tags_ignored (l : List NlAttr) :
    Interface.tryFrom l =
      Interface.tryFrom (l.filter fun a => a.nla_type.recognized) := by
  suffices h : ∀ res : Interface, Interface.tryFromGo res l =
      Interface.tryFromGo res (l.filter fun a => a.nla_type.recognized) from
    h Interface.empty
  induction l with
  | nil => intro res; rfl
  | cons a rest ih =>
    intro res
    by_cases hr : a.nla_type.recognized = true
    · have hfil : (a :: rest).filter (fun x => x.nla_type.recognized) =
          a :: rest.filter (fun x => x.nla_type.recognized) := by
        simp [List.filter_cons, hr]
      rw [hfil]
      cases heq : Interface.step res a with
      | ok r1 => rw [tryFromGo_cons_ok _ _ _ _ heq, tryFromGo_cons_ok _ _ _ _ heq]; exact ih r1
      | error e => rw [tryFromGo_cons_err _ _ _ _ heq, tryFromGo_cons_err _ _ _ _ heq]
    · have hf : a.nla_type.recognized = false := by
        cases hx : a.nla_type.recognized
        · rfl
        · exact absurd hx hr
      have hfil : (a :: rest).filter (fun x => x.nla_type.recognized) =
          rest.filter (fun x => x.nla_type.recognized) := by
        simp [List.filter_cons, hf]
      rw [hfil]
      have hstep : Interface.step res a = .ok res := step_unrecognized res _ _ hf
      rw [tryFromGo_cons_ok _ _ _ _ hstep]
      exact ih res

/-- C6: absence fidelity — when decoding succeeds and a recognized tag never
appears in the sequence, the corresponding field of the record is absent,
never a defaulted value. -/
theorem c6_absence_fidelity (l : List NlAttr) (t : Nl80211Attr) (r : Interface)
    (hrec : t.recognized = true) (habs : ∀ a ∈ l, a.nla_type ≠ t)
    (hok : Interface.tryFrom l = .ok r) :
    Interface.fieldOf t r = none := by
  have h := fieldOf_tryFromGo_ne t l Interface.empty r habs hok
  rw [h, fieldOf_empty]

/-- C6 witness: a sequence carrying only an ssid leaves the ifindex field
absent. -/
theorem c6_witness :
    Interface.fieldOf Nl80211Attr.AttrIfindex { ssid := some [5] } = none :=
  c6_absence_fidelity [⟨.AttrSsid, [5]⟩] Nl80211Attr.AttrIfindex { ssid := some [5] }
    rfl (by decide) rfl

theorem tryFrom_malformed_of_mem (l : List NlAttr) (a : NlAttr) (w : Nat)
    (ha : a ∈ l) (hw : a.nla_type.fixedWidth = some w) (hl : a.nla_payload.length ≠ w) :
    Interface.tryFrom l = .error .malformedAttribute := by
  suffices h : ∀ res : Interface, Interface.tryFromGo res l = .error .malformedAttribute from
    h Interface.empty
  induction l with
  | nil => exact absurd ha (List.not_mem_nil a)
  | cons b rest ih =>
    intro res
    rcases List.mem_cons.mp ha with rfl | hmem
    · exact tryFromGo_cons_err _ _ _ _ (step_malformed res a.nla_type a.nla_payload w hw hl)
    · cases heq : Interface.step res b with
      | ok r1 =>
        rw [tryFromGo_cons_ok _ _ _ _ heq]
        exact ih hmem r1
      | error e =>
        rw [DeErr_eq_malformed e] at heq
        exact tryFromGo_cons_err _ _ _ _ heq

/-- C7: length strictness — a recognized fixed-width attribute whose payload
length differs from the declared width makes the whole decode fail with
the malformed-attribute error, never a truncated or padded value. -/
theorem c7_length_strictness (l : List NlAttr) (a : NlAttr) (w : Nat)
    (ha : a ∈ l) (hw : a.nla_type.fixedWidth = some w) (hl : a.nla_payload.length ≠ w) :
    Interface.tryFrom l = .error .malformedAttribute :=
  tryFrom_malformed_of_mem l a w ha hw hl

/-- C7 witness: a 2-byte payload for the 4-byte frequency attribute fails the
decode. -/
theorem c7_witness :
    Interface.tryFrom [⟨.AttrWiphyFreq, [1, 0]⟩] = .error .malformedAttribute :=
  c7_length_strictness [⟨.AttrWiphyFreq, [1, 0]⟩] ⟨.AttrWiphyFreq, [1, 0]⟩ 4
    (by decide) rfl (by decide)

/-- C10: the decode aborts at the first malformed attribute — for every
suffix, in particular one repeating the same tag with a well-formed payload,
the whole decode still returns the malformed-attribute error and no record. -/
theorem c10_first_malformed_aborts (l1 l2 : List NlAttr) (a : NlAttr) (w : Nat)
    (hw : a.nla_type.fixedWidth = some w) (hl : a.nla_payload.length ≠ w) :
    Interface.tryFrom (l1 ++ a :: l2) = .error .malformedAttribute :=
  tryFrom_malformed_of_mem (l1 ++ a :: l2) a w
    (List.mem_append_right l1 (List.mem_cons_self a l2)) hw hl

/-- C10 witness: a 4-byte wdev payload (width 8) poisons the decode even
though the very next attribute carries the same tag well-formed; the suffix
alone would decode fine. -/
theorem c10_witness :
    Interface.tryFrom
        ([] ++ ⟨.AttrWdev, [1, 0, 0, 0]⟩ :: [⟨.AttrWdev, [1, 0, 0, 0, 0, 0, 0, 0]⟩]) =
      .error .malformedAttribute ∧
    Interface.tryFrom [⟨.AttrWdev, [1, 0, 0, 0, 0, 0, 0, 0]⟩] = .ok { device := some 1 } :=
  ⟨c10_first_malformed_aborts [] [⟨.AttrWdev, [1, 0, 0, 0, 0, 0, 0, 0]⟩]
      ⟨.AttrWdev, [1, 0, 0, 0]⟩ 8 rfl (by decide), by rfl⟩

theorem countData_nil {P : Type} : countData ([] : List (RecvItem P)) = 0 := rfl

theorem countData_noop {P : Type} (s : List (RecvItem P)) :
    countData (.noop :: s) = countData s := by
  simp [countData]

theorem countData_data {P : Type} (s : List (RecvItem P)) (p : Option P) :
    countData (.data p :: s) = countData s + 1 := by
  simp [countData, List.filter_cons]

theorem cleanStream_length {P T : Type} (decode : P → Except DeErr T)
    {s : List (RecvItem P)} {rs : List T} (h : CleanStream decode s rs) :
    rs.length = countData s := by
  induction h with
  | nil => rfl
  | noop h ih => rw [countData_noop]; exact ih
  | data hd h ih => rw [countData_data, List.length_cons, ih]

theorem getInfoVecGo_clean {P T : Type} (decode : P → Except DeErr T)
    {s : List (RecvItem P)} {rs : List T} (h : CleanStream decode s rs) :
    ∀ (acc : List T) (rest : List (RecvItem P)),
      getInfoVecGo decode (s ++ .done :: rest) acc = .ok (acc ++ rs) := by
  induction h with
  | nil => intro acc rest; simp [getInfoVecGo]
  | noop h ih =>
    intro acc rest
    simpa only [List.cons_append, getInfoVecGo] using ih acc rest
  | @data p r s2 rs2 hd h ih =>
    intro acc rest
    simp only [List.cons_append, getInfoVecGo, hd]
    have h2 := ih (acc ++ [r]) rest
    simpa only [List.append_assoc, List.singleton_append] using h2

theorem getInfoGo_clean {P T : Type} (decode : P → Except DeErr T) (dflt : T)
    {s : List (RecvItem P)} {rs : List T} (h : CleanStream decode s rs) :
    ∀ (retval : Option T) (rest : List (RecvItem P)),
      getInfoGo decode dflt (s ++ .done :: rest) retval =
        .ok (rs.getLastD (retval.getD dflt)) := by
  induction h with
  | nil => intro retval rest; simp [getInfoGo]
  | noop h ih =>
    intro retval rest
    simpa only [List.cons_append, getInfoGo] using ih retval rest
  | @data p r s2 rs2 hd h ih =>
    intro retval rest
    simp only [List.cons_append, getInfoGo, hd]
    have h2 := ih (some r) rest
    simpa only [Option.getD_some, List.getLastD_cons] using h2

/-- C2: a multi-record query whose stream is a clean prefix (data messages,
possibly interleaved with no-op markers, all decoding successfully) followed
by the terminal marker yields exactly the decoded records in arrival order —
as many records as data messages — and consumption stops at the terminal
marker regardless of what follows it. -/
theorem c2_multi_record_in_order {P T : Type} (decode : P → Except DeErr T)
    (s : List (RecvItem P)) (rs : List T) (rest : List (RecvItem P))
    (h : CleanStream decode s rs) :
    getInfoVecRun decode (s ++ .done :: rest) = .ok rs ∧
      rs.length = countData s := by
  refine ⟨?_, cleanStream_length decode h⟩
  simpa [getInfoVecRun] using getInfoVecGo_clean decode h [] rest

/-- C2 witness (Scenario C): the stream [Data(ifindex 1), Noop,
Data(ifindex 2), Done, Noop] yields the two-record list in arrival order. -/
theorem c2_witness :
    getInfoVecRun Interface.tryFrom
        ([.data (some [⟨.AttrIfindex, [1, 0, 0, 0]⟩]), .noop,
          .data (some [⟨.AttrIfindex, [2, 0, 0, 0]⟩])] ++ .done :: [.noop]) =
      .ok [{ index := some 1 }, { index := some 2 }] ∧
    ([{ index := some 1 }, { index := some 2 }] : List Interface).length =
      countData ([.data (some [⟨.AttrIfindex, [1, 0, 0, 0]⟩]), .noop,
        .data (some [⟨.AttrIfindex, [2, 0, 0, 0]⟩])] : List (RecvItem (List NlAttr))) :=
  c2_multi_record_in_order Interface.tryFrom
    [.data (some [⟨.AttrIfindex, [1, 0, 0, 0]⟩]), .noop,
      .data (some [⟨.AttrIfindex, [2, 0, 0, 0]⟩])]
    [{ index := some 1 }, { index := some 2 }] [.noop]
    (.data rfl (.noop (.data rfl .nil)))

/-- C3: a single-record query over a clean stream keeps the last successfully
decoded record (later data messages overwrite earlier ones); with no data
message before the terminal marker the all-absent default is returned. The
result is one record, never a list. -/
theorem c3_single_record_last_wins {P T : Type} (decode : P → Except DeErr T)
    (dflt : T) (s : List (RecvItem P)) (rs : List T) (rest : List (RecvItem P))
    (h : CleanStream decode s rs) :
    getInfoRun decode dflt (s ++ .done :: rest) = .ok (rs.getLastD dflt) := by
  simpa [getInfoRun] using getInfoGo_clean decode dflt h none rest

/-- C3 witness (Scenario B): the stream [Data(X), Data(Y), Done] yields
record Y, which differs from X; an empty stream yields the all-absent
default. -/
theorem c3_witness :
    (getInfoRun Interface.tryFrom Interface.empty
        ([.data (some [⟨.AttrIfindex, [1, 0, 0, 0]⟩]),
          .data (some [⟨.AttrIfindex, [2, 0, 0, 0]⟩])] ++ .done :: []) =
      .ok { index := some 2 }) ∧
    ({ index := some 2 } : Interface) ≠ { index := some 1 } ∧
    getInfoRun Interface.tryFrom Interface.empty ([] ++ .done :: []) =
      .ok Interface.empty :=
  ⟨c3_single_record_last_wins Interface.tryFrom Interface.empty
      [.data (some [⟨.AttrIfindex, [1, 0, 0, 0]⟩]),
        .data (some [⟨.AttrIfindex, [2, 0, 0, 0]⟩])]
      [{ index := some 1 }, { index := some 2 }] []
      (.data rfl (.data rfl .nil)),
    by decide,
    c3_single_record_last_wins Interface.tryFrom Interface.empty [] [] [] .nil⟩

/-- C1 (code bug): on an explicit protocol-level error marker both receive
loops hit `panic!("Error")` — the query dies with a process abort instead of
returning a ProtocolError to the caller; for the multi-record stream
[Data(A), Error] no value and no error value is returned at all. -/
theorem c1_error_marker_causes_panic :
    getInfoVecRun Interface.tryFrom
        [.data (some [⟨.AttrIfindex, [1, 0, 0, 0]⟩]), .error] =
      .panicked .errMsg ∧
    getInfoRun Interface.tryFrom Interface.empty
        [.data (some [⟨.AttrIfindex, [1, 0, 0, 0]⟩]), .error] =
      .panicked .errMsg :=
  ⟨rfl, rfl⟩

/-- C9 (code bug): a transport-level stream failure makes both receive loops
hit `response.unwrap()` — a process abort, not a returned StreamError. -/
theorem c9_stream_failure_causes_panic :
    getInfoRun Interface.tryFrom Interface.empty [.streamErr] =
      .panicked .iterUnwrap ∧
    getInfoVecRun Interface.tryFrom
      (.streamErr :: ([] : List (RecvItem (List NlAttr)))) = .panicked .iterUnwrap ∧
    getInfoVecRun Interface.tryFrom
        [.data (some [⟨.AttrIfindex, [1, 0, 0, 0]⟩]), .streamErr, .done] =
      .panicked .iterUnwrap :=
  ⟨rfl, rfl, rfl⟩

/-- C8: envelope construction is total and embeds exactly one scoping
attribute (the interface index) when a scope is provided — the single-record
path always provides one — and exactly zero when the command is unscoped. -/
theorem c8_scoping_attribute_count (cmd : Nl80211Cmd) (i : Int) :
    (getInfoMsghdr i cmd).attrs = [⟨.AttrIfindex, i32LeBytes i⟩] ∧
    (getInfoVecMsghdr (some i) cmd).attrs = [⟨.AttrIfindex, i32LeBytes i⟩] ∧
    (getInfoVecMsghdr none cmd).attrs = [] ∧
    (getInfoMsghdr i cmd).attrs.length = 1 ∧
    (getInfoVecMsghdr (some i) cmd).attrs.length = 1 ∧
    (getInfoVecMsghdr none cmd).attrs.length = 0 ∧
    (getInfoMsghdr i cmd).version = NL_80211_GENL_VERSION ∧
    (getInfoVecMsghdr (some i) cmd).version = NL_80211_GENL_VERSION :=
  ⟨rfl, rfl, rfl, rfl, rfl, rfl, rfl, rfl⟩

end NeliWifi
